import Mathlib

/-
Verification of the peer/outbound core of liweiqing/yarpc-go.

Embedded source files:
- internal/chooserbenchmark/benchpeer.go : BenchPeer (atomic int32 pending
  counter, subscriber notification on every StartRequest/EndRequest).
- the BenchTransport peer factory (RetainPeer parses the identifier with
  strconv.Atoi and constructs a fresh BenchPeer on every call; ReleasePeer
  is a no-op).
- transport/http/outbound_test.go documents the HTTP outbound; the outbound
  implementation itself is not among the sources, so it is modelled from the
  specification (its definitions carry a doc comment saying so).
-/

/-- Connection status of a peer, the enum of the api/peer package:
Unavailable, Connecting, Available. -/
inductive ConnectionStatus where
  | Unavailable
  | Connecting
  | Available
  deriving DecidableEq

/-- Snapshot returned by a peer's Status method: the pending request count
(a Go int, converted from the stored int32) and the connection status. -/
structure PeerStatus where
  pendingRequestCount : Int
  connectionStatus : ConnectionStatus
  deriving DecidableEq

/-- Two's-complement reduction of an unbounded integer into the int32 range,
modelling the value stored by the atomic Int32 counter used for the pending
request count (Inc and Dec wrap at the int32 boundary). -/
def wrap32 (x : Int) : Int := (x + 2147483648) % 4294967296 - 2147483648

/-- One bench peer, from benchpeer.go: its numeric identifier, the pending
request counter (an atomic int32 in the source, so arithmetic wraps at the
int32 boundary), and the log of notifications delivered to its subscriber.
Each log entry is the peer id passed to NotifyStatusChanged; the source
struct holds the subscriber itself, which is external, so the model keeps
the sequence of notification calls instead. -/
structure BenchPeer where
  id : Int
  pending : Int
  notified : List Int
  deriving DecidableEq

/-- NewBenchPeer from benchpeer.go: a fresh peer with the given id, a zero
pending counter and no notifications delivered yet. -/
def NewBenchPeer (id : Int) : BenchPeer := ⟨id, 0, []⟩

/-- StartRequest from benchpeer.go: p.pending.Inc() followed by
p.sub.NotifyStatusChanged(p.id). -/
def BenchPeer.StartRequest (p : BenchPeer) : BenchPeer :=
  ⟨p.id, wrap32 (p.pending + 1), p.notified ++ [p.id]⟩

/-- EndRequest from benchpeer.go: p.pending.Dec() followed by
p.sub.NotifyStatusChanged(p.id). -/
def BenchPeer.EndRequest (p : BenchPeer) : BenchPeer :=
  ⟨p.id, wrap32 (p.pending - 1), p.notified ++ [p.id]⟩

/-- Status from benchpeer.go: reports the loaded pending counter and the
constant ConnectionStatus Available. -/
def BenchPeer.Status (p : BenchPeer) : PeerStatus :=
  ⟨p.pending, ConnectionStatus.Available⟩

/-- One operation on a bench peer: a StartRequest or an EndRequest call. -/
inductive Op where
  | startR
  | endR
  deriving DecidableEq

/-- Apply one operation to a peer. -/
def applyOp (p : BenchPeer) : Op → BenchPeer
  | Op.startR => p.StartRequest
  | Op.endR => p.EndRequest

/-- Run a sequence of StartRequest/EndRequest calls against a peer. -/
def runOps (p : BenchPeer) (ops : List Op) : BenchPeer := ops.foldl applyOp p

/-- Balance of a sequence of operations: number of StartRequest calls minus
number of EndRequest calls, as an unbounded integer. -/
def bal (ops : List Op) : Int :=
  (ops.count Op.startR : Int) - (ops.count Op.endR : Int)

/-- Recursive checker for caller discipline: every EndRequest must be
preceded by a matching StartRequest, i.e. the running balance is positive
whenever an EndRequest occurs. -/
def wfGo : Int → List Op → Bool
  | _, [] => true
  | b, Op.startR :: rest => wfGo (b + 1) rest
  | b, Op.endR :: rest => if 0 < b then wfGo (b - 1) rest else false

/-- A sequence of operations respects caller discipline when each EndRequest
is matched by a preceding StartRequest. -/
def wellFormed (ops : List Op) : Bool := wfGo 0 ops

/-- Helper for atoi: consume decimal digits left to right, failing on the
first non-digit character. -/
def digitsToNatGo (acc : Nat) : List Char → Option Nat
  | [] => some acc
  | c :: rest =>
    if c.isDigit then digitsToNatGo (acc * 10 + (c.toNat - 48)) rest else none

/-- Model of Go strconv.Atoi on a 64-bit platform: an optional sign followed
by at least one decimal digit, with the value required to fit in an int64. -/
def atoi (s : String) : Option Int :=
  match s.data with
  | [] => none
  | c :: rest =>
    let signed : Int × List Char :=
      if c = '-' then (-1, rest) else if c = '+' then (1, rest) else (1, c :: rest)
    match signed.2 with
    | [] => none
    | ds =>
      match digitsToNatGo 0 ds with
      | none => none
      | some n =>
        let v : Int := signed.1 * n
        if -9223372036854775808 ≤ v ∧ v ≤ 9223372036854775807 then some v else none

/-- The peers allocated so far by the transport. Go allocates a new BenchPeer
object on the heap for every NewBenchPeer call; the model records each
allocation in order, and a returned peer is named by its allocation index. -/
abbrev World := List BenchPeer

/-- RetainPeer of BenchTransport: parse the identifier with strconv.Atoi,
fail with the parse error if it is not an integer, otherwise construct a
fresh BenchPeer (the transport itself is an empty struct and keeps no state:
no refcount table and no map of already retained peers). The returned index
names the newly allocated peer. -/
def RetainPeer (w : World) (id : String) : Option (Nat × World) :=
  match atoi id with
  | none => none
  | some i => some (w.length, w ++ [NewBenchPeer i])

/-- ReleasePeer of BenchTransport: a no-op. -/
def ReleasePeer (w : World) (_id : String) : World := w

/-- Modelled from the spec: the Outbound lifecycle states NotStarted,
Running, Stopped (transport/http outbound implementation is not among the
sources; only outbound_test.go is). -/
inductive LState where
  | notStarted
  | running
  | stopped
  deriving DecidableEq

/-- Modelled from the spec: the lifecycle error classifications
AlreadyStarted and NotStarted. -/
inductive LifecycleError where
  | alreadyStarted
  | notStarted
  deriving DecidableEq

/-- Modelled from the spec: an HTTP Outbound is bound to one target URL and
carries its lifecycle state. -/
structure Outbound where
  url : String
  state : LState
  deriving DecidableEq

/-- Modelled from the spec: NewOutbound builds a fresh, not yet started
Outbound for the given URL. -/
def NewOutbound (url : String) : Outbound := ⟨url, LState.notStarted⟩

/-- Modelled from the spec: Start succeeds exactly once, moving NotStarted
to Running; any later Start fails with AlreadyStarted and changes nothing.
The updated Outbound is returned alongside the result. -/
def Outbound.Start (o : Outbound) : Except LifecycleError Unit × Outbound :=
  match o.state with
  | LState.notStarted => (Except.ok (), ⟨o.url, LState.running⟩)
  | _ => (Except.error LifecycleError.alreadyStarted, o)

/-- Modelled from the spec: Stop moves Running to Stopped and succeeds; on a
never-started Outbound it fails with NotStarted; there is no transition out
of Stopped. -/
def Outbound.Stop (o : Outbound) : Except LifecycleError Unit × Outbound :=
  match o.state with
  | LState.running => (Except.ok (), ⟨o.url, LState.stopped⟩)
  | _ => (Except.error LifecycleError.notStarted, o)

/-- A transport request as issued by the caller: caller, service, encoding,
procedure, application headers and the body stream. -/
structure Request where
  caller : String
  service : String
  encoding : String
  procedure : String
  headers : List (String × String)
  body : String
  deriving DecidableEq

/-- A transport response: application headers and the body stream. -/
structure Response where
  headers : List (String × String)
  body : String
  deriving DecidableEq

/-- The wire form of a request: HTTP headers and the body. -/
structure WireRequest where
  headers : List (String × String)
  body : String
  deriving DecidableEq

/-- Outcome of one wire exchange: a connection-level error, or an HTTP
response with status code, headers and body. -/
inductive WireResult where
  | netErr (msg : String)
  | httpRes (status : Nat) (headers : List (String × String)) (body : String)
  deriving DecidableEq

/-- The network as seen by the outbound: a function from target URL and wire
request to the wire result. -/
abbrev Net := String → WireRequest → WireResult

/-- Lowercase a string character by character; HTTP header keys are
case-insensitive. -/
def strLower (s : String) : String := ⟨s.data.map Char.toLower⟩

/-- Drop the first n characters of a string. -/
def strDrop (n : Nat) (s : String) : String := ⟨s.data.drop n⟩

/-- Case-insensitive header lookup: value of the first header whose key
matches, if any. -/
def hdrGet (hs : List (String × String)) (k : String) : Option String :=
  (hs.find? (fun p => strLower p.1 == strLower k)).map Prod.snd

/-- Modelled from the spec: namespace one application header under the
transport-reserved prefix Rpc-Header-. -/
def nsHdr (p : String × String) : String × String := ("Rpc-Header-" ++ p.1, p.2)

/-- A wire header key carries an application header exactly when its first
eleven characters are, case-insensitively, the namespace Rpc-Header-. -/
def isAppHdrKey (k : String) : Bool :=
  (strLower k).data.take 11 == ("rpc-header-" : String).data

/-- Modelled from the spec: strip the namespace from one response header,
recovering the application header, or drop the header if it is not
namespaced. -/
def stripOne (p : String × String) : Option (String × String) :=
  if isAppHdrKey p.1 then some (strDrop 11 p.1, p.2) else none

/-- Modelled from the spec: recover the application headers of a response by
stripping the namespace from every namespaced wire header. -/
def stripHdrs (hs : List (String × String)) : List (String × String) :=
  hs.filterMap stripOne

/-- Modelled from the spec: translate a request into its wire form. The TTL
is a millisecond integer header Context-TTL-MS; Caller, Service, Encoding
and Procedure become the dedicated headers Rpc-Caller, Rpc-Service,
Rpc-Encoding, Rpc-Procedure; every application header key is namespaced
with Rpc-Header-; the body is forwarded unmodified. -/
def toWire (ttlMS : Nat) (req : Request) : WireRequest :=
  ⟨("Context-TTL-MS", Nat.repr ttlMS) ::
   ("Rpc-Caller", req.caller) ::
   ("Rpc-Service", req.service) ::
   ("Rpc-Encoding", req.encoding) ::
   ("Rpc-Procedure", req.procedure) ::
   req.headers.map nsHdr,
   req.body⟩

/-- Modelled from the spec: a connection-level failure is wrapped with
identifying context, keeping the underlying message. -/
def wrapMsg (m : String) : String := "call to remote peer failed: " ++ m

/-- Modelled from the spec: a non-2xx response is surfaced as an error
carrying the status code and the response body as the message. -/
def statusMsg (status : Nat) (body : String) : String :=
  "remote peer returned status " ++ Nat.repr status ++ ": " ++ body

/-- Outcome of Call: a fatal precondition violation (the Go code panics), a
recoverable error with a message, or a successful response. -/
inductive CallResult where
  | fatal
  | failed (msg : String)
  | success (res : Response)
  deriving DecidableEq

/-- Modelled from the spec: Call on a never-started Outbound is a fatal
precondition violation; a call without a deadline is rejected; otherwise the
request is translated to the wire, executed against the network, and the
result is mapped back: 2xx responses yield a Response with the namespace
stripped from its headers, non-2xx responses and connection errors yield
errors carrying the underlying context. -/
def Outbound.Call (net : Net) (o : Outbound) (ctx : Option Nat) (req : Request) :
    CallResult :=
  match o.state with
  | LState.notStarted => CallResult.fatal
  | _ =>
    match ctx with
    | none => CallResult.failed "missing deadline in context"
    | some ttlMS =>
      match net o.url (toWire ttlMS req) with
      | WireResult.netErr m => CallResult.failed (wrapMsg m)
      | WireResult.httpRes status hs body =>
        if 200 ≤ status ∧ status < 300 then
          CallResult.success ⟨stripHdrs hs, body⟩
        else CallResult.failed (statusMsg status body)

/-- A reachable echo peer: it answers 200 and reflects every namespaced
application header of the request back in the response, as the success
server of TestCallSuccess does for rpc-header-foo. -/
def echoNet : Net := fun _ w =>
  WireResult.httpRes 200 (w.headers.filter (fun p => isAppHdrKey p.1)) "great success"

/-- Boolean test that the first list is an initial segment of the second. -/
def isPre : List Char → List Char → Bool
  | [], _ => true
  | _ :: _, [] => false
  | a :: as, b :: bs => a == b && isPre as bs

/-- A URL is usable by the HTTP client exactly when it carries an http or
https scheme. -/
def hasScheme (url : String) : Bool :=
  isPre ("http://" : String).data url.data || isPre ("https://" : String).data url.data

/-- Modelled from the spec: the Go HTTP client refuses a target without a
usable scheme with an unsupported-protocol-scheme error before any network
contact; otherwise the configured server answers the exchange. -/
def goClient (server : WireRequest → WireResult) : Net := fun url w =>
  if hasScheme url then server w
  else WireResult.netErr ("unsupported protocol scheme in url " ++ url)

/-- The peer of TestCallFailures that answers 404 with the standard Go
not-found body. -/
def notFoundServer : WireRequest → WireResult := fun _ =>
  WireResult.httpRes 404 [] "404 page not found\n"

/-- The peer of TestCallFailures that answers 500 with body great sadness. -/
def internalErrServer : WireRequest → WireResult := fun _ =>
  WireResult.httpRes 500 [] "great sadness\n"

/-- The concrete request used by TestCallFailures. -/
def testReq : Request := ⟨"caller", "service", "raw", "wat", [], "huh"⟩

/-- The needle occurs as a contiguous substring of the hay. -/
abbrev strIn (needle hay : String) : Prop := needle.data <:+: hay.data

theorem strData_append (s t : String) : (s ++ t).data = s.data ++ t.data := rfl

theorem wrap32_eq_self {x : Int} (h1 : -2147483648 ≤ x) (h2 : x < 2147483648) :
    wrap32 x = x := by
  unfold wrap32
  omega

theorem wrap32_shift (a b : Int) : wrap32 (wrap32 a + b) = wrap32 (a + b) := by
  unfold wrap32
  omega

theorem wrap32_wrap32 (a : Int) : wrap32 (wrap32 a) = wrap32 a := by
  have h := wrap32_shift a 0
  simpa using h

theorem runOps_cons (p : BenchPeer) (op : Op) (ops : List Op) :
    runOps p (op :: ops) = runOps (applyOp p op) ops := rfl

theorem runOps_replicate_startR (n : Nat) (p : BenchPeer)
    (h : wrap32 p.pending = p.pending) :
    (runOps p (List.replicate n Op.startR)).pending = wrap32 (p.pending + n) := by
  induction n generalizing p with
  | zero =>
    show p.pending = wrap32 (p.pending + ((0 : Nat) : Int))
    simpa using h.symm
  | succ n ih =>
    rw [List.replicate_succ, runOps_cons]
    have h2 : wrap32 (applyOp p Op.startR).pending = (applyOp p Op.startR).pending := by
      show wrap32 (wrap32 (p.pending + 1)) = wrap32 (p.pending + 1)
      exact wrap32_wrap32 _
    rw [ih _ h2]
    show wrap32 (wrap32 (p.pending + 1) + n) = wrap32 (p.pending + (n + 1 : Nat))
    rw [wrap32_shift]
    congr 1
    omega

theorem wfGo_replicate_startR (n : Nat) : ∀ b : Int, wfGo b (List.replicate n Op.startR) = true := by
  induction n with
  | zero => intro b; rfl
  | succ n ih =>
    intro b
    rw [List.replicate_succ]
    show wfGo (b + 1) (List.replicate n Op.startR) = true
    exact ih (b + 1)

theorem bal_cons (op : Op) (ops : List Op) : bal (op :: ops) = bal [op] + bal ops := by
  cases op <;> simp +decide [bal, List.count_cons] <;> ring

theorem runOps_pending_eq_bal (ops : List Op) (p : BenchPeer)
    (h : ∀ k, k ≤ ops.length →
      -2147483648 ≤ p.pending + bal (ops.take k) ∧ p.pending + bal (ops.take k) < 2147483648) :
    (runOps p ops).pending = p.pending + bal ops := by
  induction ops generalizing p with
  | nil =>
    show p.pending = p.pending + bal []
    simp +decide [bal]
  | cons op rest ih =>
    have h1 := h 1 (by simp)
    rw [show (op :: rest).take 1 = [op] from rfl] at h1
    have hstep : (applyOp p op).pending = p.pending + bal [op] := by
      cases op with
      | startR =>
        have hb : bal [Op.startR] = 1 := by decide
        rw [hb] at h1 ⊢
        show wrap32 (p.pending + 1) = p.pending + 1
        exact wrap32_eq_self h1.1 h1.2
      | endR =>
        have hb : bal [Op.endR] = -1 := by decide
        rw [hb] at h1 ⊢
        show wrap32 (p.pending - 1) = p.pending + -1
        have hr : wrap32 (p.pending - 1) = p.pending - 1 :=
          wrap32_eq_self (by omega) (by omega)
        rw [hr]
        ring
    have hrest : ∀ k, k ≤ rest.length →
        -2147483648 ≤ (applyOp p op).pending + bal (rest.take k) ∧
        (applyOp p op).pending + bal (rest.take k) < 2147483648 := by
      intro k hk
      rw [hstep]
      have h2 := h (k + 1) (by simpa using Nat.succ_le_succ hk)
      rw [List.take_succ_cons, bal_cons] at h2
      constructor <;> omega
    rw [runOps_cons, ih _ hrest, hstep, bal_cons op rest]
    ring

/-- Claim C7, counterexample: the pending counter is an atomic int32, so a
sequence of 2147483648 StartRequest calls — which satisfies the caller
discipline, having no EndRequest at all — wraps the counter to the negative
int32 minimum. The claim that the count never goes negative for every
disciplined sequence is therefore false on the code. -/
theorem c7_counterexample :
    wellFormed (List.replicate 2147483648 Op.startR) = true ∧
    (runOps (NewBenchPeer 0) (List.replicate 2147483648 Op.startR)).pending < 0 := by
  constructor
  · exact wfGo_replicate_startR 2147483648 0
  · have h := runOps_replicate_startR 2147483648 (NewBenchPeer 0) (by decide)
    rw [h]
    decide

/-- Claim C7 (amended): for every sequence of StartRequest/EndRequest calls
in which each prefix has at least as many StartRequests as EndRequests and
the number of outstanding requests stays below 2147483648 (the int32 upper
bound), the pending count after every prefix equals the start/end balance
and never goes negative; and whenever the whole sequence is balanced the
final count is exactly zero. -/
theorem c7_amended_pending (i : Int) (ops : List Op)
    (h : ∀ k, k ≤ ops.length → 0 ≤ bal (ops.take k) ∧ bal (ops.take k) < 2147483648) :
    (∀ n, (runOps (NewBenchPeer i) (ops.take n)).pending = bal (ops.take n)) ∧
    (∀ n, 0 ≤ (runOps (NewBenchPeer i) (ops.take n)).pending) ∧
    (bal ops = 0 → (runOps (NewBenchPeer i) ops).pending = 0) := by
  have hbal : ∀ n, 0 ≤ bal (ops.take n) ∧ bal (ops.take n) < 2147483648 := by
    intro n
    by_cases hn : n ≤ ops.length
    · exact h n hn
    · have hlen : ops.length ≤ n := le_of_not_le hn
      rw [List.take_of_length_le hlen]
      have h2 := h ops.length le_rfl
      rwa [List.take_length] at h2
  have key : ∀ n, (runOps (NewBenchPeer i) (ops.take n)).pending = bal (ops.take n) := by
    intro n
    have hcond : ∀ k, k ≤ (ops.take n).length →
        -2147483648 ≤ (NewBenchPeer i).pending + bal ((ops.take n).take k) ∧
        (NewBenchPeer i).pending + bal ((ops.take n).take k) < 2147483648 := by
      intro k _
      rw [List.take_take]
      have h3 := hbal (min k n)
      have hp : (NewBenchPeer i).pending = 0 := rfl
      rw [hp]
      constructor <;> omega
    have hmain := runOps_pending_eq_bal (ops.take n) (NewBenchPeer i) hcond
    simpa [NewBenchPeer] using hmain
  refine ⟨key, fun n => ?_, fun hz => ?_⟩
  · rw [key n]
    exact (hbal n).1
  · have h4 := key ops.length
    rw [List.take_length] at h4
    rw [h4, hz]

/-- Witness for the amended claim C7, at the disciplined concrete sequence
of one StartRequest followed by its EndRequest. -/
theorem c7_amended_pending_witness :
    (∀ n, 0 ≤ (runOps (NewBenchPeer 0) ([Op.startR, Op.endR].take n)).pending) ∧
    (runOps (NewBenchPeer 0) [Op.startR, Op.endR]).pending = 0 := by
  have h := c7_amended_pending 0 [Op.startR, Op.endR] (by decide)
  exact ⟨h.2.1, h.2.2 (by decide)⟩

/-- Claim C8, counterexample: at the reachable peer state with pending count
2147483647 (the int32 maximum, reached by that many disciplined StartRequest
calls), one more StartRequest does not increment the count by one: the
atomic int32 wraps to the negative minimum instead. -/
theorem c8_counterexample :
    (runOps (NewBenchPeer 0) (List.replicate 2147483647 Op.startR)).pending = 2147483647 ∧
    (runOps (NewBenchPeer 0) (List.replicate 2147483647 Op.startR)).StartRequest.pending ≠
      (runOps (NewBenchPeer 0) (List.replicate 2147483647 Op.startR)).pending + 1 := by
  have h := runOps_replicate_startR 2147483647 (NewBenchPeer 0) (by decide)
  have h0 : (runOps (NewBenchPeer 0) (List.replicate 2147483647 Op.startR)).pending
      = 2147483647 := by
    rw [h]
    decide
  refine ⟨h0, ?_⟩
  have hs : (runOps (NewBenchPeer 0) (List.replicate 2147483647 Op.startR)).StartRequest.pending
      = wrap32 ((runOps (NewBenchPeer 0) (List.replicate 2147483647 Op.startR)).pending + 1) :=
    rfl
  rw [hs, h0]
  decide

/-- Claim C8 (amended): StartRequest increments the pending count by exactly
one modulo int32 wraparound — exactly one whenever the incremented value
still fits in an int32 — and then delivers exactly one notification carrying
the peer id to the subscriber; EndRequest decrements likewise and delivers
exactly one notification; Status and the constructor leave the count alone,
and no other operation exists on the peer. -/
theorem c8_amended_ops (p : BenchPeer) :
    p.StartRequest.pending = wrap32 (p.pending + 1) ∧
    p.StartRequest.notified = p.notified ++ [p.id] ∧
    p.EndRequest.pending = wrap32 (p.pending - 1) ∧
    p.EndRequest.notified = p.notified ++ [p.id] ∧
    p.StartRequest.id = p.id ∧
    p.EndRequest.id = p.id ∧
    p.Status.pendingRequestCount = p.pending ∧
    (-2147483648 ≤ p.pending → p.pending + 1 < 2147483648 →
      p.StartRequest.pending = p.pending + 1) ∧
    (-2147483648 < p.pending → p.pending < 2147483648 →
      p.EndRequest.pending = p.pending - 1) := by
  refine ⟨rfl, rfl, rfl, rfl, rfl, rfl, rfl, fun h1 h2 => ?_, fun h1 h2 => ?_⟩
  · show wrap32 (p.pending + 1) = p.pending + 1
    exact wrap32_eq_self (by omega) (by omega)
  · show wrap32 (p.pending - 1) = p.pending - 1
    exact wrap32_eq_self (by omega) (by omega)

/-- Witness for the amended claim C8 at a fresh peer with id 5. -/
theorem c8_amended_ops_witness :
    (NewBenchPeer 5).StartRequest.pending = (NewBenchPeer 5).pending + 1 ∧
    (NewBenchPeer 5).StartRequest.notified
      = (NewBenchPeer 5).notified ++ [(NewBenchPeer 5).id] :=
  ⟨(c8_amended_ops (NewBenchPeer 5)).2.2.2.2.2.2.2.1 (by decide) (by decide),
    (c8_amended_ops (NewBenchPeer 5)).2.1⟩

/-- Claim C9, counterexample: retaining the identifier 1 twice does not
return the existing peer the second time — BenchTransport keeps no refcount
and no table, and RetainPeer allocates a fresh BenchPeer on every call, so
the second retain returns allocation index 1, a second distinct peer for the
same identifier, not the existing index 0. -/
theorem c9_counterexample :
    RetainPeer [] "1" = some (0, [NewBenchPeer 1]) ∧
    RetainPeer [NewBenchPeer 1] "1" = some (1, [NewBenchPeer 1, NewBenchPeer 1]) ∧
    (0 : Nat) ≠ 1 := by decide

/-- Claim C9 (amended): RetainPeer never returns an existing peer: on every
call it either fails — exactly when the identifier does not parse as a
decimal integer — or allocates and returns one fresh BenchPeer, whatever was
retained before; ReleasePeer is a no-op. -/
theorem c9_amended_retain (w : World) (id : String) :
    (atoi id = none → RetainPeer w id = none) ∧
    (∀ i, atoi id = some i → RetainPeer w id = some (w.length, w ++ [NewBenchPeer i])) ∧
    ReleasePeer w id = w := by
  refine ⟨fun h => ?_, fun i h => ?_, rfl⟩
  · unfold RetainPeer
    rw [h]
  · unfold RetainPeer
    rw [h]

/-- Witness for the amended claim C9: identifier 7 parses and yields a fresh
peer; identifier x does not parse and fails. -/
theorem c9_amended_retain_witness :
    RetainPeer [] "7" = some (0, [NewBenchPeer 7]) ∧ RetainPeer [] "x" = none :=
  ⟨(c9_amended_retain [] "7").2.1 7 (by decide), (c9_amended_retain [] "x").1 (by decide)⟩

/-- Claim C10: Status always reports ConnectionStatus Available — for every
peer value and in particular after every sequence of StartRequest and
EndRequest calls on a fresh peer; the BenchPeer struct stores no
connection-status state, so Unavailable and Connecting are never reported. -/
theorem c10_always_available :
    (∀ p : BenchPeer, p.Status.connectionStatus = ConnectionStatus.Available) ∧
    (∀ (i : Int) (ops : List Op),
      (runOps (NewBenchPeer i) ops).Status.connectionStatus = ConnectionStatus.Available) :=
  ⟨fun _ => rfl, fun _ _ => rfl⟩

theorem isAppHdrKey_ns (k : String) : isAppHdrKey ("Rpc-Header-" ++ k) = true := by
  unfold isAppHdrKey strLower
  rw [show ("Rpc-Header-" ++ k).data = ("Rpc-Header-" : String).data ++ k.data from rfl,
    List.map_append]
  rw [show (11 : Nat) = (List.map Char.toLower ("Rpc-Header-" : String).data).length from by decide,
    List.take_left]
  decide

theorem strDrop_ns (k : String) : strDrop 11 ("Rpc-Header-" ++ k) = k := by
  unfold strDrop
  rw [show ("Rpc-Header-" ++ k).data = ("Rpc-Header-" : String).data ++ k.data from rfl,
    show (11 : Nat) = ("Rpc-Header-" : String).data.length from by decide,
    List.drop_left]

theorem stripOne_ns (q : String × String) : stripOne (nsHdr q) = some q := by
  obtain ⟨k, v⟩ := q
  unfold stripOne nsHdr
  simp [isAppHdrKey_ns, strDrop_ns]

theorem stripHdrs_ns (hs : List (String × String)) : stripHdrs (hs.map nsHdr) = hs := by
  unfold stripHdrs
  rw [List.filterMap_map]
  have hfn : stripOne ∘ nsHdr = some := funext stripOne_ns
  rw [hfn, List.filterMap_some]

theorem strip_filter_toWire (ttlMS : Nat) (req : Request) :
    stripHdrs ((toWire ttlMS req).headers.filter (fun p => isAppHdrKey p.1)) = req.headers := by
  have hfilter : (toWire ttlMS req).headers.filter (fun p => isAppHdrKey p.1)
      = req.headers.map nsHdr := by
    simp +decide [toWire, List.filter_cons]
    intro a b k v hm hEq
    have h1 : ("Rpc-Header-" ++ k) = a := congrArg Prod.fst hEq
    rw [← h1]
    exact isAppHdrKey_ns k
  rw [hfilter, stripHdrs_ns]

/-- Claim C1: through a Running Outbound with a valid deadline, against a
reachable peer that reflects the namespaced application headers (as the
TestCallSuccess server does), Call returns a Response carrying every
application header of the Request with its value preserved exactly; the
outbound namespaces each application header on the wire and strips the
namespace from response headers, so the response wire header
rpc-header-foo: bar is observed by the caller as application header
foo = bar. -/
theorem c1_header_roundtrip (o : Outbound) (ttlMS : Nat) (req : Request)
    (h : o.state = LState.running) :
    Outbound.Call echoNet o (some ttlMS) req
      = CallResult.success ⟨req.headers, "great success"⟩ ∧
    (∀ k v, hdrGet req.headers k = some v →
      hdrGet (stripHdrs ((toWire ttlMS req).headers.filter (fun p => isAppHdrKey p.1))) k
        = some v) ∧
    hdrGet (stripHdrs [("rpc-header-foo", "bar")]) "foo" = some "bar" := by
  obtain ⟨url, st⟩ := o
  change st = LState.running at h
  subst h
  refine ⟨?_, ?_, by decide⟩
  · have hred : Outbound.Call echoNet ⟨url, LState.running⟩ (some ttlMS) req
        = CallResult.success
            ⟨stripHdrs ((toWire ttlMS req).headers.filter (fun p => isAppHdrKey p.1)),
              "great success"⟩ := rfl
    rw [hred, strip_filter_toWire]
  · intro k v hkv
    rw [strip_filter_toWire]
    exact hkv

/-- Witness for claim C1 at the concrete request of TestCallSuccess carrying
the application header foo = bar. -/
theorem c1_header_roundtrip_witness :
    Outbound.Call echoNet ⟨"http://peer", LState.running⟩ (some 1000)
      ⟨"caller", "service", "raw", "hello", [("foo", "bar")], "world"⟩
      = CallResult.success ⟨[("foo", "bar")], "great success"⟩ :=
  (c1_header_roundtrip ⟨"http://peer", LState.running⟩ 1000
    ⟨"caller", "service", "raw", "hello", [("foo", "bar")], "world"⟩ rfl).1

/-- Claim C2: the wire translation encodes the remaining TTL as the
millisecond integer header Context-TTL-MS, encodes Caller, Service,
Encoding and Procedure as the dedicated headers Rpc-Caller, Rpc-Service,
Rpc-Encoding and Rpc-Procedure, carries every application header under the
key namespaced with Rpc-Header-, and forwards the body unmodified. -/
theorem c2_wire_translation (ttlMS : Nat) (req : Request) :
    hdrGet (toWire ttlMS req).headers "Context-TTL-MS" = some (Nat.repr ttlMS) ∧
    hdrGet (toWire ttlMS req).headers "Rpc-Caller" = some req.caller ∧
    hdrGet (toWire ttlMS req).headers "Rpc-Service" = some req.service ∧
    hdrGet (toWire ttlMS req).headers "Rpc-Encoding" = some req.encoding ∧
    hdrGet (toWire ttlMS req).headers "Rpc-Procedure" = some req.procedure ∧
    (∀ k v, (k, v) ∈ req.headers → ("Rpc-Header-" ++ k, v) ∈ (toWire ttlMS req).headers) ∧
    (toWire ttlMS req).body = req.body := by
  refine ⟨rfl, rfl, rfl, rfl, rfl, fun k v hm => ?_, rfl⟩
  have hmem : nsHdr (k, v) ∈ req.headers.map nsHdr := List.mem_map_of_mem nsHdr hm
  exact List.mem_cons_of_mem _ (List.mem_cons_of_mem _ (List.mem_cons_of_mem _
    (List.mem_cons_of_mem _ (List.mem_cons_of_mem _ hmem))))

/-- Witness for claim C2: the application header foo = bar of a concrete
request appears on the wire under the key Rpc-Header- followed by foo. -/
theorem c2_wire_translation_witness :
    ("Rpc-Header-" ++ "foo", "bar")
      ∈ (toWire 1000 ⟨"caller", "service", "raw", "hello", [("foo", "bar")], "world"⟩).headers :=
  (c2_wire_translation 1000
    ⟨"caller", "service", "raw", "hello", [("foo", "bar")], "world"⟩).2.2.2.2.2.1
    "foo" "bar" (by decide)

/-- Claim C3: the first Start on a fresh Outbound succeeds and moves it to
Running; any further Start while Running fails with the AlreadyStarted
classification and leaves the state Running. -/
theorem c3_start_once :
    (∀ url, (NewOutbound url).Start = (Except.ok (), ⟨url, LState.running⟩)) ∧
    (∀ o : Outbound, o.state = LState.running →
      o.Start = (Except.error LifecycleError.alreadyStarted, o) ∧
      o.Start.2.state = LState.running) := by
  refine ⟨fun url => rfl, fun o h => ?_⟩
  obtain ⟨url, st⟩ := o
  change st = LState.running at h
  subst h
  exact ⟨rfl, rfl⟩

/-- Witness for claim C3 at the URL of TestStartTwice. -/
theorem c3_start_once_witness :
    (NewOutbound "http://localhost:9999").Start
      = (Except.ok (), ⟨"http://localhost:9999", LState.running⟩) ∧
    Outbound.Start ⟨"http://localhost:9999", LState.running⟩
      = (Except.error LifecycleError.alreadyStarted,
          ⟨"http://localhost:9999", LState.running⟩) :=
  ⟨c3_start_once.1 "http://localhost:9999",
    (c3_start_once.2 ⟨"http://localhost:9999", LState.running⟩ rfl).1⟩

/-- Claim C4: Call on a never-started Outbound is a fatal precondition
violation for every network, context and request — the distinguished fatal
outcome, never a success carrying some response and never an ordinary
recoverable error. -/
theorem c4_call_without_start_fatal :
    (∀ (net : Net) (url : String) (ctx : Option Nat) (req : Request),
      Outbound.Call net (NewOutbound url) ctx req = CallResult.fatal) ∧
    (∀ r : Response, CallResult.fatal ≠ CallResult.success r) ∧
    (∀ m : String, CallResult.fatal ≠ CallResult.failed m) :=
  ⟨fun _ _ _ _ => rfl, fun _ h => CallResult.noConfusion h,
    fun _ h => CallResult.noConfusion h⟩

/-- Witness for claim C4 at the concrete setup of TestCallWithoutStarting. -/
theorem c4_call_without_start_fatal_witness :
    Outbound.Call echoNet (NewOutbound "http://localhost:9999") (some 200) testReq
      = CallResult.fatal :=
  c4_call_without_start_fatal.1 echoNet "http://localhost:9999" (some 200) testReq

/-- Claim C5: Stop on a never-started Outbound fails with the NotStarted
classification and changes nothing; Stop from Running succeeds and moves the
Outbound to Stopped; neither Start nor Stop leaves the Stopped state. -/
theorem c5_stop_lifecycle :
    (∀ url, (NewOutbound url).Stop
      = (Except.error LifecycleError.notStarted, NewOutbound url)) ∧
    (∀ o : Outbound, o.state = LState.running →
      o.Stop = (Except.ok (), ⟨o.url, LState.stopped⟩)) ∧
    (∀ o : Outbound, o.state = LState.stopped → o.Start.2 = o ∧ o.Stop.2 = o) := by
  refine ⟨fun url => rfl, fun o h => ?_, fun o h => ?_⟩
  · obtain ⟨url, st⟩ := o
    change st = LState.running at h
    subst h
    rfl
  · obtain ⟨url, st⟩ := o
    change st = LState.stopped at h
    subst h
    exact ⟨rfl, rfl⟩

/-- Witness for claim C5 at the URL of TestStopWithoutStarting. -/
theorem c5_stop_lifecycle_witness :
    (NewOutbound "http://localhost:9999").Stop
      = (Except.error LifecycleError.notStarted, NewOutbound "http://localhost:9999") ∧
    Outbound.Stop ⟨"http://localhost:9999", LState.running⟩
      = (Except.ok (), ⟨"http://localhost:9999", LState.stopped⟩) ∧
    (Outbound.Stop ⟨"http://localhost:9999", LState.stopped⟩).2
      = ⟨"http://localhost:9999", LState.stopped⟩ :=
  ⟨c5_stop_lifecycle.1 "http://localhost:9999",
    c5_stop_lifecycle.2.1 ⟨"http://localhost:9999", LState.running⟩ rfl,
    (c5_stop_lifecycle.2.2 ⟨"http://localhost:9999", LState.stopped⟩ rfl).2⟩

/-- Claim C6: Call wraps exchange failures without swallowing them — the
three scenarios of TestCallFailures: a malformed target yields an error
message naming the protocol scheme problem; a peer answering 404 yields an
error message containing 404 and the response body text; a peer answering
500 with body great sadness yields an error message containing great
sadness. In general the wrapped connection error keeps the underlying
message, and the non-2xx error message carries both the status code and the
whole response body. -/
theorem c6_error_surfacing :
    Outbound.Call (goClient notFoundServer) ⟨"not a URL", LState.running⟩ (some 1000) testReq
      = CallResult.failed (wrapMsg ("unsupported protocol scheme in url " ++ "not a URL")) ∧
    strIn "protocol scheme" (wrapMsg ("unsupported protocol scheme in url " ++ "not a URL")) ∧
    Outbound.Call (goClient notFoundServer) ⟨"http://nf", LState.running⟩ (some 1000) testReq
      = CallResult.failed (statusMsg 404 "404 page not found\n") ∧
    strIn "404" (statusMsg 404 "404 page not found\n") ∧
    strIn "page not found" (statusMsg 404 "404 page not found\n") ∧
    Outbound.Call (goClient internalErrServer) ⟨"http://ie", LState.running⟩ (some 1000) testReq
      = CallResult.failed (statusMsg 500 "great sadness\n") ∧
    strIn "great sadness" (statusMsg 500 "great sadness\n") ∧
    (∀ m, strIn m (wrapMsg m)) ∧
    (∀ (st : Nat) (b : String), strIn b (statusMsg st b) ∧ strIn (Nat.repr st) (statusMsg st b)) := by
  refine ⟨rfl, by decide, rfl, by decide, by decide, rfl, by decide, fun m => ?_, fun st b => ?_⟩
  · exact ⟨("call to remote peer failed: " : String).data, [],
      by simp [wrapMsg, strData_append]⟩
  · constructor
    · exact ⟨("remote peer returned status " ++ Nat.repr st ++ ": ").data, [],
        by simp [statusMsg, strData_append, List.append_assoc]⟩
    · exact ⟨("remote peer returned status " : String).data, (": " : String).data ++ b.data,
        by simp [statusMsg, strData_append, List.append_assoc]⟩
